import Mathlib

/-!
# HC-SR04 ultrasonic range sensor driver (`drivers/gpio/hc_sr04_driver.go`)

A shallow embedding of `NewHCSR04Driver`, `GetDistance` and `GetDistanceSample`.

* The digital lines and the clock are external: they are modelled by an
  environment `Env` of answer streams, indexed by the number of calls made so
  far.  The mutable part of the outside world (`World`) records the calls.
* `time.Duration` and instants are integers counting nanoseconds; the
  saturation of `Time.Sub` at the ends of the `int64` range (292 years) is not
  modelled.
* `time.Sleep` leaves the modelled state as it is: the clock stream is
  arbitrary, so any passage of time is already covered.
* The polling loop `for { ... }` of `GetDistance` has no bound of its own; the
  model takes a bound `fuel` on the number of iterations and answers `none`
  when it is used up.  `none` is also the answer of a call entered while the
  mutex is held (sequentially, `Lock` then never returns).
-/

namespace HCSR04

/-- Go `error` values: the package sentinel and every other error. -/
inductive GoError
  | readTimeout
  | other (msg : String)
  deriving DecidableEq, Repr

/-- The sentinel `ErrHCSR04ReadTimeout = errors.New("read request timed out")`. -/
def ErrHCSR04ReadTimeout : GoError := GoError.readTimeout

/-- Go `time.Duration`: nanoseconds. -/
abbrev Duration := Int

/-- Go `time.Nanosecond`. -/
def Nanosecond : Duration := 1

/-- Go `time.Millisecond`. -/
def Millisecond : Duration := 1000000

/-- Go `type hcsr04Distance struct { duration time.Duration }`. -/
structure hcsr04Distance where
  duration : Duration
  deriving DecidableEq, Repr

/-- The fields of `HCSR04Driver` that the measuring code reads or writes.
`lock` is `true` while the mutex is held.  The connections are in `Env`. -/
structure HCSR04Driver where
  inputPin : String
  outputPin : String
  timeout : Duration
  lock : Bool
  Distance : hcsr04Distance
  deriving DecidableEq, Repr

/-- The lines and the clock: the answer to the `k`-th call of each kind. -/
structure Env where
  /-- The error of `outputConn.DigitalWrite(pin, level)`, `none` for nil. -/
  DigitalWrite : Nat → String → Nat → Option GoError
  /-- The value and the error of `inputConn.DigitalRead(pin)`. -/
  DigitalRead : Nat → String → Int × Option GoError
  /-- The clock reading of the `k`-th `time.Now()` / `time.Since(_)`. -/
  Now : Nat → Int

/-- The calls made so far on the lines and on the clock. -/
structure World where
  writes : List (String × Nat)
  reads : List String
  ticks : Nat
  deriving DecidableEq, Repr

/-- What a method call ends with: a returned error value (`none` is nil) or a
run-time panic "index out of range". -/
inductive Outcome
  | returned (err : Option GoError)
  | panicIndexOutOfRange
  deriving DecidableEq, Repr

/-- The constructor `NewHCSR04Driver(outputConn, inputConn, inputPin, outputPin, v...)`.
The variadic `v` is accepted and not used. The fields `name`, `Eventer` and
`Commander` play no part in the measuring code and are left out. -/
def NewHCSR04Driver (inputPin outputPin : String) (_v : List Duration) : HCSR04Driver :=
  { inputPin := inputPin
    outputPin := outputPin
    timeout := 40 * Millisecond
    lock := false
    Distance := ⟨0⟩ }

/-- The method `h.Pin()`. -/
def HCSR04Driver.Pin (h : HCSR04Driver) : String := h.outputPin

/-- The method `h.InputPin()`. -/
def HCSR04Driver.InputPin (h : HCSR04Driver) : String := h.inputPin

/-- One call `h.outputConn.DigitalWrite(pin, level)`. -/
def digitalWrite (env : Env) (w : World) (pin : String) (level : Nat) :
    Option GoError × World :=
  (env.DigitalWrite w.writes.length pin level, { w with writes := w.writes ++ [(pin, level)] })

/-- One call `h.inputConn.DigitalRead(pin)`. -/
def digitalRead (env : Env) (w : World) (pin : String) :
    (Int × Option GoError) × World :=
  (env.DigitalRead w.reads.length pin, { w with reads := w.reads ++ [pin] })

/-- One clock reading. -/
def now (env : Env) (w : World) : Int × World :=
  (env.Now w.ticks, { w with ticks := w.ticks + 1 })

/-- The call `time.Sleep(d)`: no call on the lines, no clock reading. -/
def Sleep (_d : Duration) (w : World) : World := w

/-- How the part of the loop body before the timeout test ends (lines 140-155):
with `break`, or by going on with the new `start`, `set`. -/
inductive Edge
  | brk (h : HCSR04Driver) (w : World)
  | cont (start : Int) (set : Bool) (w : World)

/-- Lines 140-155 of `GetDistance`. -/
def pollBody (env : Env) (h : HCSR04Driver) (start : Int) (set : Bool) (w : World) : Edge :=
  let (r, w) := digitalRead env w h.InputPin
  match r.2 with
  | some _ => Edge.brk h w
  | none =>
    if set = false then
      if r.1 = 1 then
        let (t, w) := now env w
        Edge.cont t true w
      else Edge.cont start set w
    else
      if r.1 = 0 then
        let (t, w) := now env w
        Edge.brk { h with Distance := ⟨t - start⟩ } w
      else Edge.cont start set w

/-- The loop of lines 139-162 followed by lines 164-165. -/
def pollLoop (env : Env) (absStart : Int) :
    Nat → HCSR04Driver → Int → Bool → World → Option (Option GoError × HCSR04Driver × World)
  | 0, _, _, _, _ => none
  | fuel + 1, h, start, set, w =>
    match pollBody env h start set w with
    | Edge.brk h w => some (none, { h with lock := false }, w)
    | Edge.cont start set w =>
      let (t, w) := now env w
      if t - absStart ≥ h.timeout then
        some (some ErrHCSR04ReadTimeout, { h with lock := false }, w)
      else pollLoop env absStart fuel h start set w

/-- The method `func (h *HCSR04Driver) GetDistance() error`. -/
def GetDistance (env : Env) (fuel : Nat) (h : HCSR04Driver) (w : World) :
    Option (Option GoError × HCSR04Driver × World) :=
  if h.lock then none
  else
    let h := { h with lock := true }
    let (err, w) := digitalWrite env w h.Pin 0
    match err with
    | some e => some (some e, { h with lock := false }, w)
    | none =>
      let w := Sleep (5 * Nanosecond) w
      let (err, w) := digitalWrite env w h.Pin 1
      match err with
      | some e => some (some e, { h with lock := false }, w)
      | none =>
        let (absStart, w) := now env w
        let w := Sleep (10 * Nanosecond) w
        let (err, w) := digitalWrite env w h.Pin 0
        match err with
        | some e => some (some e, { h with lock := false }, w)
        | none => pollLoop env absStart fuel h 0 false w

/-- How the `for` loop of `GetDistanceSample` ends: by the `return` of line 93
or by running out of iterations, with the collected `distances`. -/
inductive LoopExit
  | aborted
  | completed (distances : List hcsr04Distance)
  deriving DecidableEq, Repr

/-- The loop of lines 89-101, with `remaining = samples - i` iterations to go. -/
def sampleLoop (env : Env) (fuel : Nat) (samples : Int) (interval : Duration) :
    Nat → Int → List hcsr04Distance → HCSR04Driver → World →
      Option (LoopExit × HCSR04Driver × World)
  | 0, _, distances, h, w => some (LoopExit.completed distances, h, w)
  | remaining + 1, errCount, distances, h, w =>
    match GetDistance env fuel h w with
    | none => none
    | some (some _, h, w) =>
      if errCount > samples.tdiv 2 then some (LoopExit.aborted, h, w)
      else sampleLoop env fuel samples interval remaining (errCount + 1) distances h w
    | some (none, h, w) =>
      sampleLoop env fuel samples interval remaining errCount (distances ++ [h.Distance]) h
        (Sleep interval w)

/-- The method
`func (h *HCSR04Driver) GetDistanceSample(samples int, intervals ...time.Duration) error`.
The index `int(math.Floor(float64(len(distances)/2)))` is `len(distances)/2`. -/
def GetDistanceSample (env : Env) (fuel : Nat) (samples : Int) (intervals : List Duration)
    (h : HCSR04Driver) (w : World) : Option (Outcome × HCSR04Driver × World) :=
  let interval :=
    match intervals with
    | [] => 60 * Millisecond
    | d :: _ => d
  match sampleLoop env fuel samples interval samples.toNat 0 [] h w with
  | none => none
  | some (LoopExit.aborted, h, w) => some (Outcome.returned (some ErrHCSR04ReadTimeout), h, w)
  | some (LoopExit.completed distances, h, w) =>
    match distances[distances.length / 2]? with
    | none => some (Outcome.panicIndexOutOfRange, h, w)
    | some d => some (Outcome.returned none, { h with Distance := d }, w)

/-! ## Vocabulary of the statements -/

/-- The outcomes of `n` consecutive calls of `GetDistance` started in `(h, w)`:
for each cycle the returned error and the `Distance` stored after it. -/
def cycleOutcomes (env : Env) (fuel : Nat) :
    Nat → HCSR04Driver → World → Option (List (Option GoError × hcsr04Distance))
  | 0, _, _ => some []
  | n + 1, h, w =>
    match GetDistance env fuel h w with
    | none => none
    | some (err, h, w) => (cycleOutcomes env fuel n h w).map (fun l => (err, h.Distance) :: l)

/-- The readings of the cycles that returned nil, in call order. -/
def successfulReadings (outs : List (Option GoError × hcsr04Distance)) : List hcsr04Distance :=
  outs.filterMap (fun o => match o.1 with
    | none => some o.2
    | some _ => none)

/-- The abort test of lines 91-95 run over a sequence of cycle outcomes, entered
with `errCount` failures counted: whether the `return` of line 93 is reached. -/
def batchAborts (samples : Int) : Int → List (Option GoError × hcsr04Distance) → Bool
  | _, [] => false
  | errCount, (some _, _) :: rest =>
    if errCount > samples.tdiv 2 then true else batchAborts samples (errCount + 1) rest
  | errCount, (none, _) :: rest => batchAborts samples errCount rest

/-- The levels of the three trigger writes (lines 118, 125, 134). -/
def triggerLevels : List Nat := [0, 1, 0]

/-- Whether one of the reads `r0, ..., r0 + i` of the input pin gives 1. -/
def highSeen (env : Env) (pin : String) (r0 : Nat) : Nat → Bool
  | 0 => decide ((env.DigitalRead r0 pin).1 = 1)
  | i + 1 => highSeen env pin r0 i || decide ((env.DigitalRead (r0 + (i + 1)) pin).1 = 1)

/-- The index of the clock reading used by the timeout test (line 157) of loop
iteration `i` of a call entered in world `w`, when no iteration before it left
the loop: one reading for `absStart`, one for each earlier test, and one for
`start` once a high level has been read. -/
def checkTick (env : Env) (h : HCSR04Driver) (w : World) (i : Nat) : Nat :=
  w.ticks + 1 + i + (if highSeen env h.inputPin w.reads.length i then 1 else 0)

/-- The value of `time.Since(absStart)` in the timeout test of iteration `i`. -/
def elapsedAt (env : Env) (h : HCSR04Driver) (w : World) (i : Nat) : Duration :=
  env.Now (checkTick env h w i) - env.Now w.ticks

/-! ## Concrete environments -/

/-- The state of the outside world before any call. -/
def w0 : World := ⟨[], [], 0⟩

/-- The driver of the tests: `NewHCSR04Driver(a, b, "1", "2")`. -/
def h0 : HCSR04Driver := NewHCSR04Driver "1" "2" []

/-- Writes succeed, every read of the input pin fails. -/
def envReadError : Env :=
  { DigitalWrite := fun _ _ _ => none
    DigitalRead := fun _ _ => (0, some (GoError.other "read error"))
    Now := fun k => k }

/-- The lines of the test adaptor (writes succeed, reads give 1) with a clock
that advances by 40 ms per reading: every cycle times out. -/
def envEchoStuckHigh : Env :=
  { DigitalWrite := fun _ _ _ => none
    DigitalRead := fun _ _ => (1, none)
    Now := fun k => k * (40 * Millisecond) }

/-- Every cycle sees a high then a low reading; cycle `c` measures `16 c + 8` ns. -/
def envPulses : Env :=
  { DigitalWrite := fun _ _ _ => none
    DigitalRead := fun k _ => (if k % 2 = 0 then 1 else 0, none)
    Now := fun k => k * k }

/-- The first cycle measures 8 ns; from the fourth write on every write fails. -/
def envOnePulse : Env :=
  { DigitalWrite := fun k _ _ => if k < 3 then none else some (GoError.other "write error")
    DigitalRead := fun k _ => (if k % 2 = 0 then 1 else 0, none)
    Now := fun k => k * k }

/-- The second write fails. -/
def envSecondWriteFails : Env :=
  { DigitalWrite := fun k _ _ => if k = 1 then some (GoError.other "write error") else none
    DigitalRead := fun _ _ => (1, none)
    Now := fun k => k }

/-- The lines of the test adaptor with a clock that advances by 10 ms per reading. -/
def envSlowClock : Env :=
  { DigitalWrite := fun _ _ _ => none
    DigitalRead := fun _ _ => (1, none)
    Now := fun k => k * (10 * Millisecond) }

/-- The driver of the tests with a reading of 8 ns stored by an earlier call. -/
def h8 : HCSR04Driver := { h0 with Distance := ⟨8⟩ }

/-- A batch of five: the third cycle fails at its first write (write number 6),
the four others see a high then a low reading and measure 30, 10, 40 and 20 ns,
in this order. -/
def envFourPulses : Env :=
  { DigitalWrite := fun k _ _ => if k = 6 then some (GoError.other "write error") else none
    DigitalRead := fun k _ => (if k % 2 = 0 then 1 else 0, none)
    Now := fun k =>
      [0, 1, 2, 31, 100, 101, 102, 111, 200, 201, 202, 241, 300, 301, 302, 321].getD k 0 }

/-! ## Lemmas on the polling loop -/

/-- An error returned by the loop is the timeout, and the driver is only unlocked. -/
theorem pollLoop_error (env : Env) (absStart : Int) (fuel : Nat) (h : HCSR04Driver)
    (start : Int) (set : Bool) (w : World) (e : GoError) (h1 : HCSR04Driver) (w1 : World)
    (hr : pollLoop env absStart fuel h start set w = some (some e, h1, w1)) :
    e = ErrHCSR04ReadTimeout ∧ h1 = { h with lock := false } := by
  induction fuel generalizing start set w with
  | zero => simp [pollLoop] at hr
  | succ n ih =>
    unfold pollLoop at hr
    split at hr
    · simp at hr
    · simp only [now] at hr
      split at hr
      · simp only [Option.some.injEq, Prod.mk.injEq] at hr
        exact ⟨hr.1.symm, hr.2.1.symm⟩
      · exact ih _ _ _ hr

/-- A call of `GetDistance` that returns an error leaves `Distance` as it was
and the mutex free. -/
theorem GetDistance_error (env : Env) (fuel : Nat) (h : HCSR04Driver) (w : World)
    (e : GoError) (h1 : HCSR04Driver) (w1 : World)
    (hr : GetDistance env fuel h w = some (some e, h1, w1)) :
    h1.Distance = h.Distance ∧ h1.lock = false := by
  unfold GetDistance at hr
  split at hr
  · simp at hr
  · simp only [digitalWrite, now, Sleep] at hr
    split at hr
    · simp only [Option.some.injEq, Prod.mk.injEq] at hr
      rw [← hr.2.1]
      simp
    · split at hr
      · simp only [Option.some.injEq, Prod.mk.injEq] at hr
        rw [← hr.2.1]
        simp
      · split at hr
        · simp only [Option.some.injEq, Prod.mk.injEq] at hr
          rw [← hr.2.1]
          simp
        · have := (pollLoop_error _ _ _ _ _ _ _ _ _ _ hr).2
          rw [this]
          simp


/-- One iteration that neither leaves the loop nor changes `set`. -/
theorem pollLoop_step (env : Env) (a : Int) (f : Nat) (h : HCSR04Driver) (start : Int)
    (set : Bool) (ws : List (String × Nat)) (rs : List String) (t : Nat)
    (hok : (env.DigitalRead rs.length h.inputPin).2 = none)
    (hq : (env.DigitalRead rs.length h.inputPin).1 ≠ (if set then 0 else 1))
    (ht : env.Now t - a < h.timeout) :
    pollLoop env a (f + 1) h start set ⟨ws, rs, t⟩ =
      pollLoop env a f h start set ⟨ws, rs ++ [h.inputPin], t + 1⟩ := by
  have ht2 : ¬ (env.Now t - a ≥ h.timeout) := not_le.mpr ht
  cases set <;>
    simp_all [pollLoop, pollBody, digitalRead, now, HCSR04Driver.InputPin]

/-- The last iteration of a cycle that times out without a change of `set`. -/
theorem pollLoop_step_timeout (env : Env) (a : Int) (f : Nat) (h : HCSR04Driver) (start : Int)
    (set : Bool) (ws : List (String × Nat)) (rs : List String) (t : Nat)
    (hok : (env.DigitalRead rs.length h.inputPin).2 = none)
    (hq : (env.DigitalRead rs.length h.inputPin).1 ≠ (if set then 0 else 1))
    (ht : env.Now t - a ≥ h.timeout) :
    pollLoop env a (f + 1) h start set ⟨ws, rs, t⟩ =
      some (some ErrHCSR04ReadTimeout, { h with lock := false },
        ⟨ws, rs ++ [h.inputPin], t + 1⟩) := by
  cases set <;>
    simp_all [pollLoop, pollBody, digitalRead, now, HCSR04Driver.InputPin]

/-- The iteration that sees the rising edge. -/
theorem pollLoop_rise (env : Env) (a : Int) (f : Nat) (h : HCSR04Driver) (start : Int)
    (ws : List (String × Nat)) (rs : List String) (t : Nat)
    (hok : (env.DigitalRead rs.length h.inputPin).2 = none)
    (hv : (env.DigitalRead rs.length h.inputPin).1 = 1) :
    pollLoop env a (f + 1) h start false ⟨ws, rs, t⟩ =
      if env.Now (t + 1) - a ≥ h.timeout then
        some (some ErrHCSR04ReadTimeout, { h with lock := false },
          ⟨ws, rs ++ [h.inputPin], t + 2⟩)
      else pollLoop env a f h (env.Now t) true ⟨ws, rs ++ [h.inputPin], t + 2⟩ := by
  simp_all [pollLoop, pollBody, digitalRead, now, HCSR04Driver.InputPin]

/-- The iteration that sees the falling edge. -/
theorem pollLoop_fall (env : Env) (a : Int) (f : Nat) (h : HCSR04Driver) (start : Int)
    (ws : List (String × Nat)) (rs : List String) (t : Nat)
    (hok : (env.DigitalRead rs.length h.inputPin).2 = none)
    (hv : (env.DigitalRead rs.length h.inputPin).1 = 0) :
    pollLoop env a (f + 1) h start true ⟨ws, rs, t⟩ =
      some (none, { h with Distance := ⟨env.Now t - start⟩, lock := false },
        ⟨ws, rs ++ [h.inputPin], t + 1⟩) := by
  simp_all [pollLoop, pollBody, digitalRead, now, HCSR04Driver.InputPin]

/-- The iteration whose read fails. -/
theorem pollLoop_read_error (env : Env) (a : Int) (f : Nat) (h : HCSR04Driver) (start : Int)
    (set : Bool) (ws : List (String × Nat)) (rs : List String) (t : Nat) (e : GoError)
    (herr : (env.DigitalRead rs.length h.inputPin).2 = some e) :
    pollLoop env a (f + 1) h start set ⟨ws, rs, t⟩ =
      some (none, { h with lock := false }, ⟨ws, rs ++ [h.inputPin], t⟩) := by
  simp_all [pollLoop, pollBody, digitalRead, now, HCSR04Driver.InputPin]

/-- A run of `m` iterations that neither leave the loop nor change `set`. -/
theorem pollLoop_skip (env : Env) (a : Int) (h : HCSR04Driver) (start : Int) (set : Bool)
    (ws : List (String × Nat)) (m : Nat) :
    ∀ (f : Nat) (rs : List String) (t : Nat),
      (∀ i, i < m → (env.DigitalRead (rs.length + i) h.inputPin).2 = none ∧
        (env.DigitalRead (rs.length + i) h.inputPin).1 ≠ (if set then 0 else 1)) →
      (∀ i, i < m → env.Now (t + i) - a < h.timeout) →
      pollLoop env a (m + f) h start set ⟨ws, rs, t⟩ =
        pollLoop env a f h start set ⟨ws, rs ++ List.replicate m h.inputPin, t + m⟩ := by
  induction m with
  | zero =>
    intro f rs t _ _
    simp
  | succ m ih =>
    intro f rs t hr ht
    have e1 : m + 1 + f = (m + f) + 1 := by omega
    have h0 := hr 0 (by omega)
    have t0 := ht 0 (by omega)
    simp only [Nat.add_zero] at h0 t0
    rw [e1, pollLoop_step env a (m + f) h start set ws rs t h0.1 h0.2 t0]
    rw [ih f (rs ++ [h.inputPin]) (t + 1)]
    · have e2 : rs ++ [h.inputPin] ++ List.replicate m h.inputPin =
          rs ++ List.replicate (m + 1) h.inputPin := by
        simp [List.replicate_succ]
      have e3 : t + 1 + m = t + (m + 1) := by omega
      rw [e2, e3]
    · intro i hi
      have := hr (i + 1) (by omega)
      have e4 : (rs ++ [h.inputPin]).length + i = rs.length + (i + 1) := by
        simp; omega
      rw [e4]
      exact this
    · intro i hi
      have := ht (i + 1) (by omega)
      have e5 : t + 1 + i = t + (i + 1) := by omega
      rw [e5]
      exact this


/-- The flag `highSeen` says that one of the reads `r0, ..., r0 + i` gives 1. -/
theorem highSeen_iff (env : Env) (pin : String) (r0 i : Nat) :
    highSeen env pin r0 i = true ↔ ∃ j, j ≤ i ∧ (env.DigitalRead (r0 + j) pin).1 = 1 := by
  induction i with
  | zero =>
    simp [highSeen]
  | succ i ih =>
    simp only [highSeen, Bool.or_eq_true, ih, decide_eq_true_eq]
    constructor
    · rintro (⟨j, hj, hv⟩ | hv)
      · exact ⟨j, by omega, hv⟩
      · exact ⟨i + 1, le_refl _, hv⟩
    · rintro ⟨j, hj, hv⟩
      by_cases hji : j ≤ i
      · exact Or.inl ⟨j, hji, hv⟩
      · have : j = i + 1 := by omega
        subst this
        exact Or.inr hv

/-- A cycle in which `set` does not change times out at iteration `m` when the
timeout test fails before and holds there. -/
theorem pollLoop_timeout (env : Env) (a : Int) (h : HCSR04Driver) (start : Int) (set : Bool)
    (ws : List (String × Nat)) (m fuel : Nat) (rs : List String) (t : Nat)
    (hr : ∀ i, i ≤ m → (env.DigitalRead (rs.length + i) h.inputPin).2 = none ∧
        (env.DigitalRead (rs.length + i) h.inputPin).1 ≠ (if set then 0 else 1))
    (ht : ∀ i, i < m → env.Now (t + i) - a < h.timeout)
    (hm : env.Now (t + m) - a ≥ h.timeout) (hf : m < fuel) :
    pollLoop env a fuel h start set ⟨ws, rs, t⟩ =
      some (some ErrHCSR04ReadTimeout, { h with lock := false },
        ⟨ws, rs ++ List.replicate (m + 1) h.inputPin, t + m + 1⟩) := by
  obtain ⟨f, rfl⟩ : ∃ f, fuel = m + (f + 1) := ⟨fuel - m - 1, by omega⟩
  rw [pollLoop_skip env a h start set ws m (f + 1) rs t (fun i hi => hr i (by omega)) ht]
  have hlen : (rs ++ List.replicate m h.inputPin).length = rs.length + m := by simp
  have hm1 := hr m (le_refl _)
  rw [← hlen] at hm1
  rw [pollLoop_step_timeout env a f h start set ws _ (t + m) hm1.1 hm1.2 hm]
  simp [List.replicate_add]


/-- After three successful trigger writes `GetDistance` is the polling loop. -/
theorem GetDistance_polls (env : Env) (fuel : Nat) (h : HCSR04Driver) (w : World)
    (hlock : h.lock = false)
    (hw0 : env.DigitalWrite w.writes.length h.outputPin 0 = none)
    (hw1 : env.DigitalWrite (w.writes.length + 1) h.outputPin 1 = none)
    (hw2 : env.DigitalWrite (w.writes.length + 2) h.outputPin 0 = none) :
    GetDistance env fuel h w =
      pollLoop env (env.Now w.ticks) fuel { h with lock := true } 0 false
        ⟨w.writes ++ [(h.outputPin, 0), (h.outputPin, 1), (h.outputPin, 0)], w.reads,
          w.ticks + 1⟩ := by
  simp [GetDistance, digitalWrite, now, Sleep, HCSR04Driver.Pin, hlock, hw0, hw1, hw2]

/-- Locking and then releasing the mutex of a free driver gives the driver back. -/
theorem lock_unlock_eq (h : HCSR04Driver) (hl : h.lock = false) :
    ({ ({ h with lock := true } : HCSR04Driver) with lock := false } : HCSR04Driver) = h := by
  cases h
  simp_all

/-- C9: when the mutex is free and write number `k + 1` of the trigger sequence
(levels 0, 1, 0 on the output pin) is the first to fail, with error `e`,
`GetDistance` returns `e`; the driver is unchanged, with the mutex free; the
writes made are the first `k + 1` of the sequence and no read is made. -/
theorem GetDistance_write_error (env : Env) (fuel : Nat) (h : HCSR04Driver) (w : World)
    (k : Nat) (e : GoError) (hlock : h.lock = false) (hk : k < 3)
    (hprev : ∀ i, i < k →
      env.DigitalWrite (w.writes.length + i) h.outputPin (triggerLevels.getD i 0) = none)
    (hfail :
      env.DigitalWrite (w.writes.length + k) h.outputPin (triggerLevels.getD k 0) = some e) :
    GetDistance env fuel h w =
      some (some e, h,
        { writes := w.writes ++ (triggerLevels.take (k + 1)).map (fun l => (h.outputPin, l))
          reads := w.reads
          ticks := w.ticks + (if k = 2 then 1 else 0) }) := by
  have hu := lock_unlock_eq h hlock
  obtain rfl | rfl | rfl : k = 0 ∨ k = 1 ∨ k = 2 := by omega
  · simp [triggerLevels] at hfail
    simp [GetDistance, digitalWrite, Sleep, HCSR04Driver.Pin, hlock, hfail, hu, triggerLevels]
  · have h0 := hprev 0 (by omega)
    simp [triggerLevels] at hfail h0
    simp [GetDistance, digitalWrite, Sleep, HCSR04Driver.Pin, hlock, hfail, h0, hu,
      triggerLevels]
  · have h0 := hprev 0 (by omega)
    have h1 := hprev 1 (by omega)
    simp [triggerLevels] at hfail h0 h1
    simp [GetDistance, digitalWrite, now, Sleep, HCSR04Driver.Pin, hlock, hfail, h0, h1, hu,
      triggerLevels]

/-- C9 at a concrete input: the second write fails. -/
theorem GetDistance_write_error_witness :
    GetDistance envSecondWriteFails 0 h0 w0 =
      some (some (GoError.other "write error"), h0,
        { writes := [("2", 0), ("2", 1)], reads := [], ticks := 0 }) :=
  GetDistance_write_error envSecondWriteFails 0 h0 w0 1 (GoError.other "write error")
    (by decide) (by decide) (by decide) (by decide)


/-- C10: when the mutex is free, the three trigger writes and the reads of the
input pin succeed, no reading 0 follows a reading 1, and iteration `N` of the
polling loop is the first whose timeout test finds the time elapsed since
`absStart` at least the budget, `GetDistance` (with fuel for `N + 1`
iterations) returns `ErrHCSR04ReadTimeout` in iteration `N`: after `N + 1`
reads, the clock reading of that test being the last one taken. -/
theorem GetDistance_timeout (env : Env) (fuel : Nat) (h : HCSR04Driver) (w : World) (N : Nat)
    (hlock : h.lock = false)
    (hw0 : env.DigitalWrite w.writes.length h.outputPin 0 = none)
    (hw1 : env.DigitalWrite (w.writes.length + 1) h.outputPin 1 = none)
    (hw2 : env.DigitalWrite (w.writes.length + 2) h.outputPin 0 = none)
    (hok : ∀ i, i ≤ N → (env.DigitalRead (w.reads.length + i) h.inputPin).2 = none)
    (hnofall : ∀ i j, i < j → j ≤ N →
      (env.DigitalRead (w.reads.length + i) h.inputPin).1 = 1 →
      (env.DigitalRead (w.reads.length + j) h.inputPin).1 ≠ 0)
    (hbefore : ∀ i, i < N → elapsedAt env h w i < h.timeout)
    (hat : elapsedAt env h w N ≥ h.timeout)
    (hfuel : N < fuel) :
    GetDistance env fuel h w =
      some (some ErrHCSR04ReadTimeout, h,
        { writes := w.writes ++ [(h.outputPin, 0), (h.outputPin, 1), (h.outputPin, 0)]
          reads := w.reads ++ List.replicate (N + 1) h.inputPin
          ticks := checkTick env h w N + 1 }) := by
  rw [GetDistance_polls env fuel h w hlock hw0 hw1 hw2]
  have hu := lock_unlock_eq h hlock
  obtain ⟨ws, rs, c0⟩ := w
  simp only at hok hnofall ⊢
  by_cases hex : ∃ j, j ≤ N ∧ (env.DigitalRead (rs.length + j) h.inputPin).1 = 1
  · -- the echo line rises at iteration `j` and does not fall
    classical
    let j := Nat.find hex
    have hjN : j ≤ N := (Nat.find_spec hex).1
    have hjv : (env.DigitalRead (rs.length + j) h.inputPin).1 = 1 := (Nat.find_spec hex).2
    have hjmin : ∀ i, i < j → (env.DigitalRead (rs.length + i) h.inputPin).1 ≠ 1 := by
      intro i hi hv
      exact Nat.find_min hex hi ⟨by omega, hv⟩
    have hseen : ∀ i, j ≤ i → highSeen env h.inputPin rs.length i = true := by
      intro i hi
      exact (highSeen_iff env h.inputPin rs.length i).2 ⟨j, hi, hjv⟩
    have hunseen : ∀ i, i < j → highSeen env h.inputPin rs.length i = false := by
      intro i hi
      apply Bool.eq_false_iff.2
      intro hs
      obtain ⟨k, hk, hv⟩ := (highSeen_iff env h.inputPin rs.length i).1 hs
      exact hjmin k (by omega) hv
    obtain ⟨f, rfl⟩ : ∃ f, fuel = j + (f + 1) := ⟨fuel - j - 1, by omega⟩
    rw [pollLoop_skip env (env.Now c0) { h with lock := true } 0 false _ j (f + 1) rs (c0 + 1)
      (fun i hi => ⟨hok i (by omega), by simpa using hjmin i hi⟩)
      (fun i hi => by
        have := hbefore i (by omega)
        simp only [elapsedAt, checkTick, hunseen i hi] at this
        simpa using this)]
    have hlen : (rs ++ List.replicate j h.inputPin).length = rs.length + j := by simp
    rw [pollLoop_rise env (env.Now c0) f { h with lock := true } 0 _ _ (c0 + 1 + j)
      (by rw [hlen]; exact hok j hjN) (by rw [hlen]; exact hjv)]
    by_cases hjeq : j = N
    · have hN := hat
      simp only [elapsedAt, checkTick, hseen N (by omega)] at hN
      have e1 : c0 + 1 + j + 1 = c0 + 1 + N + 1 := by omega
      rw [e1, if_pos (by simpa using hN), hu]
      simp only [checkTick, hseen N (by omega), if_true]
      rw [hjeq]
      simp [List.replicate_add]
    · have hj := hbefore j (by omega)
      simp only [elapsedAt, checkTick, hseen j (le_refl _)] at hj
      rw [if_neg (by simpa using hj)]
      have hlen2 : (rs ++ List.replicate j h.inputPin ++ [h.inputPin]).length =
          rs.length + (j + 1) := by
        simp only [List.length_append, List.length_replicate, List.length_singleton]
        omega
      rw [pollLoop_timeout env (env.Now c0) { h with lock := true } (env.Now (c0 + 1 + j)) true
        _ (N - j - 1) f _ (c0 + 1 + j + 2)
        (fun i hi => by
          rw [hlen2]
          have e : rs.length + (j + 1) + i = rs.length + (j + 1 + i) := by omega
          rw [e]
          exact ⟨hok _ (by omega), by simpa using hnofall j (j + 1 + i) (by omega) (by omega) hjv⟩)
        (fun i hi => by
          have := hbefore (j + 1 + i) (by omega)
          simp only [elapsedAt, checkTick, hseen (j + 1 + i) (by omega)] at this
          have e : c0 + 1 + j + 2 + i = c0 + 1 + (j + 1 + i) + 1 := by omega
          rw [e]
          simpa using this)
        (by
          have hN := hat
          simp only [elapsedAt, checkTick, hseen N (by omega)] at hN
          have e : c0 + 1 + j + 2 + (N - j - 1) = c0 + 1 + N + 1 := by omega
          rw [e]
          simpa using hN)
        (by omega)]
      rw [hu]
      simp only [checkTick, hseen N (by omega), if_true]
      have e1 : c0 + 1 + j + 2 + (N - j - 1) + 1 = c0 + 1 + N + 1 + 1 := by omega
      have e2 : rs ++ List.replicate j h.inputPin ++ [h.inputPin] ++
          List.replicate (N - j - 1 + 1) h.inputPin = rs ++ List.replicate (N + 1) h.inputPin := by
        have e3 : [h.inputPin] = List.replicate 1 h.inputPin := rfl
        have e4 : j + (1 + (N - j - 1 + 1)) = N + 1 := by omega
        rw [List.append_assoc, List.append_assoc, e3, List.append_replicate_replicate,
          List.append_replicate_replicate, e4]
      rw [e1, e2]
  · -- the echo line never rises
    have hnever : ∀ i, i ≤ N → (env.DigitalRead (rs.length + i) h.inputPin).1 ≠ 1 := by
      intro i hi hv
      exact hex ⟨i, hi, hv⟩
    have hunseen : ∀ i, i ≤ N → highSeen env h.inputPin rs.length i = false := by
      intro i hi
      apply Bool.eq_false_iff.2
      intro hs
      obtain ⟨k, hk, hv⟩ := (highSeen_iff env h.inputPin rs.length i).1 hs
      exact hnever k (by omega) hv
    rw [pollLoop_timeout env (env.Now c0) { h with lock := true } 0 false _ N fuel rs (c0 + 1)
      (fun i hi => ⟨hok i hi, by simpa using hnever i hi⟩)
      (fun i hi => by
        have := hbefore i hi
        simp only [elapsedAt, checkTick, hunseen i (by omega)] at this
        simpa using this)
      (by
        have hN := hat
        simp only [elapsedAt, checkTick, hunseen N (le_refl _)] at hN
        simpa using hN)
      hfuel]
    rw [hu]
    simp [checkTick, hunseen N (le_refl _)]


/-- C10 at a concrete input: the echo line is high from the first read on and
the third timeout test is the first to find 40 ms elapsed. -/
theorem GetDistance_timeout_witness :
    GetDistance envSlowClock 3 h0 w0 =
      some (some ErrHCSR04ReadTimeout, h0,
        { writes := [("2", 0), ("2", 1), ("2", 0)], reads := ["1", "1", "1"], ticks := 5 }) :=
  GetDistance_timeout envSlowClock 3 h0 w0 2 (by decide) (by decide) (by decide) (by decide)
    (by decide) (fun i j _ _ _ => by simp [envSlowClock]) (by decide) (by decide) (by decide)

/-- A successful measurement: the echo line rises at read `j` and falls at read `k`. -/
theorem GetDistance_pulse (env : Env) (fuel : Nat) (h : HCSR04Driver) (w : World) (j k : Nat)
    (hlock : h.lock = false)
    (hw0 : env.DigitalWrite w.writes.length h.outputPin 0 = none)
    (hw1 : env.DigitalWrite (w.writes.length + 1) h.outputPin 1 = none)
    (hw2 : env.DigitalWrite (w.writes.length + 2) h.outputPin 0 = none)
    (hjk : j < k) (hfuel : k < fuel)
    (hok : ∀ i, i ≤ k → (env.DigitalRead (w.reads.length + i) h.inputPin).2 = none)
    (hpre : ∀ i, i < j → (env.DigitalRead (w.reads.length + i) h.inputPin).1 ≠ 1)
    (hrise : (env.DigitalRead (w.reads.length + j) h.inputPin).1 = 1)
    (hmid : ∀ i, j < i → i < k → (env.DigitalRead (w.reads.length + i) h.inputPin).1 ≠ 0)
    (hfall : (env.DigitalRead (w.reads.length + k) h.inputPin).1 = 0)
    (htime : ∀ i, i < k → elapsedAt env h w i < h.timeout) :
    GetDistance env fuel h w =
      some (none,
        { h with Distance := ⟨env.Now (w.ticks + 2 + k) - env.Now (w.ticks + 1 + j)⟩ },
        { writes := w.writes ++ [(h.outputPin, 0), (h.outputPin, 1), (h.outputPin, 0)]
          reads := w.reads ++ List.replicate (k + 1) h.inputPin
          ticks := w.ticks + 3 + k }) := by
  rw [GetDistance_polls env fuel h w hlock hw0 hw1 hw2]
  obtain ⟨ws, rs, c0⟩ := w
  simp only at hok hpre hrise hmid hfall ⊢
  have hseen : ∀ i, j ≤ i → highSeen env h.inputPin rs.length i = true := by
    intro i hi
    exact (highSeen_iff env h.inputPin rs.length i).2 ⟨j, hi, hrise⟩
  have hunseen : ∀ i, i < j → highSeen env h.inputPin rs.length i = false := by
    intro i hi
    apply Bool.eq_false_iff.2
    intro hs
    obtain ⟨m, hm, hv⟩ := (highSeen_iff env h.inputPin rs.length i).1 hs
    exact hpre m (by omega) hv
  obtain ⟨f, rfl⟩ : ∃ f, fuel = j + ((k - j - 1 + (f + 1)) + 1) := ⟨fuel - k - 1, by omega⟩
  rw [pollLoop_skip env (env.Now c0) { h with lock := true } 0 false _ j _ rs (c0 + 1)
    (fun i hi => ⟨hok i (by omega), by simpa using hpre i hi⟩)
    (fun i hi => by
      have := htime i (by omega)
      simp only [elapsedAt, checkTick, hunseen i hi] at this
      simpa using this)]
  have hlen : (rs ++ List.replicate j h.inputPin).length = rs.length + j := by simp
  rw [pollLoop_rise env (env.Now c0) _ { h with lock := true } 0 _ _ (c0 + 1 + j)
    (by rw [hlen]; exact hok j (by omega)) (by rw [hlen]; exact hrise)]
  have hj := htime j hjk
  simp only [elapsedAt, checkTick, hseen j (le_refl _)] at hj
  rw [if_neg (by simpa using hj)]
  have hlen2 : (rs ++ List.replicate j h.inputPin ++ [h.inputPin]).length =
      rs.length + (j + 1) := by
    simp only [List.length_append, List.length_replicate, List.length_singleton]
    omega
  rw [pollLoop_skip env (env.Now c0) { h with lock := true } (env.Now (c0 + 1 + j)) true _
    (k - j - 1) (f + 1) _ (c0 + 1 + j + 2)
    (fun i hi => by
      rw [hlen2]
      have e : rs.length + (j + 1) + i = rs.length + (j + 1 + i) := by omega
      rw [e]
      exact ⟨hok _ (by omega), by simpa using hmid (j + 1 + i) (by omega) (by omega)⟩)
    (fun i hi => by
      have := htime (j + 1 + i) (by omega)
      simp only [elapsedAt, checkTick, hseen (j + 1 + i) (by omega)] at this
      have e : c0 + 1 + j + 2 + i = c0 + 1 + (j + 1 + i) + 1 := by omega
      rw [e]
      simpa using this)]
  have hlen3 : (rs ++ List.replicate j h.inputPin ++ [h.inputPin] ++
      List.replicate (k - j - 1) h.inputPin).length = rs.length + k := by
    simp only [List.length_append, List.length_replicate, List.length_singleton]
    omega
  rw [pollLoop_fall env (env.Now c0) f { h with lock := true } _ _ _ _
    (by rw [hlen3]; exact hok k (le_refl _)) (by rw [hlen3]; exact hfall)]
  have e1 : c0 + 1 + j + 2 + (k - j - 1) = c0 + 2 + k := by omega
  have e2 : rs ++ List.replicate j h.inputPin ++ [h.inputPin] ++
      List.replicate (k - j - 1) h.inputPin ++ [h.inputPin] =
      rs ++ List.replicate (k + 1) h.inputPin := by
    have e3 : [h.inputPin] = List.replicate 1 h.inputPin := rfl
    have e4 : j + (1 + (k - j - 1 + 1)) = k + 1 := by omega
    rw [List.append_assoc, List.append_assoc, List.append_assoc, e3,
      List.append_replicate_replicate, List.append_replicate_replicate,
      List.append_replicate_replicate, e4]
  have e5 : c0 + 2 + k + 1 = c0 + 3 + k := by omega
  rw [e1, e2, e5]
  cases h
  simp_all


/-! ## Lemmas on the sampling loop -/

/-- The reading of a successful cycle is collected. -/
theorem successfulReadings_cons_none (d : hcsr04Distance)
    (l : List (Option GoError × hcsr04Distance)) :
    successfulReadings ((none, d) :: l) = d :: successfulReadings l := by
  simp [successfulReadings]

/-- The reading left by a failed cycle is not collected. -/
theorem successfulReadings_cons_some (e : GoError) (d : hcsr04Distance)
    (l : List (Option GoError × hcsr04Distance)) :
    successfulReadings ((some e, d) :: l) = successfulReadings l := by
  simp [successfulReadings]

/-- A batch whose cycles all return and that is not aborted runs to the end of
the loop and collects the readings of the successful cycles, in call order. -/
theorem sampleLoop_completed (env : Env) (fuel : Nat) (samples : Int) (interval : Duration)
    (n : Nat) :
    ∀ (errCount : Int) (ds : List hcsr04Distance) (h : HCSR04Driver) (w : World)
      (outs : List (Option GoError × hcsr04Distance)),
      cycleOutcomes env fuel n h w = some outs →
      batchAborts samples errCount outs = false →
      ∃ h1 w1, sampleLoop env fuel samples interval n errCount ds h w =
        some (LoopExit.completed (ds ++ successfulReadings outs), h1, w1) := by
  induction n with
  | zero =>
    intro errCount ds h w outs hc _
    simp only [cycleOutcomes, Option.some.injEq] at hc
    subst hc
    exact ⟨h, w, by simp [sampleLoop, successfulReadings]⟩
  | succ n ih =>
    intro errCount ds h w outs hc hb
    unfold cycleOutcomes at hc
    unfold sampleLoop
    cases hG : GetDistance env fuel h w with
    | none => simp [hG] at hc
    | some r =>
      obtain ⟨err, h2, w2⟩ := r
      simp only [hG] at hc
      cases hc1 : cycleOutcomes env fuel n h2 w2 with
      | none => simp [hc1] at hc
      | some outs1 =>
      rw [hc1] at hc
      have hc2 : (err, h2.Distance) :: outs1 = outs := by simpa using hc
      subst hc2
      cases err with
      | none =>
        simp only [batchAborts] at hb
        obtain ⟨h1, w1, hs⟩ := ih errCount (ds ++ [h2.Distance]) h2 w2 outs1 hc1 hb
        exact ⟨h1, w1, by simp [hs, Sleep, successfulReadings_cons_none]⟩
      | some e =>
        simp only [batchAborts] at hb
        split at hb
        · simp at hb
        · rename_i hlt
          obtain ⟨h1, w1, hs⟩ := ih (errCount + 1) ds h2 w2 outs1 hc1 hb
          exact ⟨h1, w1, by simp [hlt, hs, successfulReadings_cons_some]⟩

/-- An aborted batch: the cycles it ran end with the failure that met the abort
test, and `Distance` is the reading of the last successful one of them, or the
initial one when none was successful. -/
theorem sampleLoop_aborted (env : Env) (fuel : Nat) (samples : Int) (interval : Duration)
    (n : Nat) :
    ∀ (errCount : Int) (ds : List hcsr04Distance) (h : HCSR04Driver) (w : World)
      (h1 : HCSR04Driver) (w1 : World),
      sampleLoop env fuel samples interval n errCount ds h w =
        some (LoopExit.aborted, h1, w1) →
      ∃ m outs, m ≤ n ∧ cycleOutcomes env fuel m h w = some outs ∧
        batchAborts samples errCount outs = true ∧
        batchAborts samples errCount outs.dropLast = false ∧
        h1.Distance = (successfulReadings outs).getLastD h.Distance := by
  induction n with
  | zero =>
    intro errCount ds h w h1 w1 hs
    simp [sampleLoop] at hs
  | succ n ih =>
    intro errCount ds h w h1 w1 hs
    unfold sampleLoop at hs
    cases hG : GetDistance env fuel h w with
    | none => simp [hG] at hs
    | some r =>
      obtain ⟨err, h2, w2⟩ := r
      cases err with
      | none =>
        simp only [hG, Sleep] at hs
        obtain ⟨m, outs, hm, hc, hb, hd, hD⟩ := ih errCount _ h2 w2 h1 w1 hs
        have hne : outs ≠ [] := by
          rintro rfl
          simp [batchAborts] at hb
        obtain ⟨o, outs2, rfl⟩ := List.exists_cons_of_ne_nil hne
        refine ⟨m + 1, (none, h2.Distance) :: o :: outs2, by omega, ?_, ?_, ?_, ?_⟩
        · simp [cycleOutcomes, hG, hc]
        · simpa [batchAborts] using hb
        · simpa [batchAborts, List.dropLast] using hd
        · rw [hD, successfulReadings_cons_none (l := o :: outs2), List.getLastD_cons]
      | some e =>
        have hkeep := (GetDistance_error env fuel h w e h2 w2 hG).1
        simp only [hG] at hs
        split at hs
        · rename_i hgt
          simp only [Option.some.injEq, Prod.mk.injEq, true_and] at hs
          refine ⟨1, [(some e, h2.Distance)], by omega, ?_, ?_, ?_, ?_⟩
          · simp [cycleOutcomes, hG]
          · simp [batchAborts, hgt]
          · simp [batchAborts]
          · rw [← hs.1, hkeep, successfulReadings_cons_some, successfulReadings]
            rfl
        · rename_i hle
          obtain ⟨m, outs, hm, hc, hb, hd, hD⟩ := ih (errCount + 1) _ h2 w2 h1 w1 hs
          have hne : outs ≠ [] := by
            rintro rfl
            simp [batchAborts] at hb
          obtain ⟨o, outs2, rfl⟩ := List.exists_cons_of_ne_nil hne
          refine ⟨m + 1, (some e, h2.Distance) :: o :: outs2, by omega, ?_, ?_, ?_, ?_⟩
          · simp [cycleOutcomes, hG, hc]
          · simpa [batchAborts, hle] using hb
          · simpa [batchAborts, List.dropLast, hle] using hd
          · rw [hD, hkeep, successfulReadings_cons_some (l := o :: outs2)]


/-! ## The claims -/

/-- C1: with the three trigger writes successful and the first read of the input
pin failing, `GetDistance` returns nil, not `ErrHCSR04ReadTimeout`, with the
reading stored before the call still in `Distance`. -/
theorem GetDistance_read_error_returns_nil :
    GetDistance envReadError 1 h8 w0 =
      some (none, h8, { writes := [("2", 0), ("2", 1), ("2", 0)], reads := ["1"], ticks := 1 }) := by
  decide

/-- C2: when every cycle times out, `GetDistanceSample` with `samples` 0, 1 or 2
ends in the panic of indexing the empty `distances`, not in a returned error. -/
theorem GetDistanceSample_small_batch_panics :
    (GetDistanceSample envEchoStuckHigh 1 0 [] h0 w0).map (fun r => r.1) =
        some Outcome.panicIndexOutOfRange ∧
      (GetDistanceSample envEchoStuckHigh 1 1 [] h0 w0).map (fun r => r.1) =
        some Outcome.panicIndexOutOfRange ∧
      (GetDistanceSample envEchoStuckHigh 1 2 [] h0 w0).map (fun r => r.1) =
        some Outcome.panicIndexOutOfRange := by
  decide

/-- C3: with `samples = 10` and every cycle timing out (one read per cycle),
`GetDistanceSample` returns `ErrHCSR04ReadTimeout` after seven cycles: at
failure number `10 / 2 + 2`, not `10 / 2 + 1`. -/
theorem GetDistanceSample_aborts_at_seventh_failure :
    (GetDistanceSample envEchoStuckHigh 1 10 [] h0 w0).map (fun r => (r.1, r.2.2.reads.length)) =
        some (Outcome.returned (some ErrHCSR04ReadTimeout), 7) ∧
      cycleOutcomes envEchoStuckHigh 1 7 h0 w0 =
        some (List.replicate 7 (some ErrHCSR04ReadTimeout, ⟨0⟩)) := by
  decide

/-- C4 as stated fails: a batch of five whose first cycle measures 8 ns and
whose other cycles fail returns `ErrHCSR04ReadTimeout` and leaves 8 ns in
`Distance`, which held 0 before the call. -/
theorem GetDistanceSample_failure_changes_Distance :
    (GetDistanceSample envOnePulse 2 5 [] h0 w0).map (fun r => (r.1, r.2.1.Distance)) =
        some (Outcome.returned (some ErrHCSR04ReadTimeout), ⟨8⟩) ∧
      h0.Distance = ⟨0⟩ := by
  decide

/-- C4, amended: when `GetDistanceSample` returns an error, the error is
`ErrHCSR04ReadTimeout`, the cycles run by the call end with the failure that
met the abort test, and `Distance` is the reading of the last of these cycles
that returned nil, or its value before the call when none of them did. -/
theorem GetDistanceSample_failure_Distance (env : Env) (fuel : Nat) (samples : Int)
    (intervals : List Duration) (h : HCSR04Driver) (w : World) (e : GoError)
    (h1 : HCSR04Driver) (w1 : World)
    (hr : GetDistanceSample env fuel samples intervals h w =
      some (Outcome.returned (some e), h1, w1)) :
    e = ErrHCSR04ReadTimeout ∧
      ∃ m outs, m ≤ samples.toNat ∧ cycleOutcomes env fuel m h w = some outs ∧
        batchAborts samples 0 outs = true ∧ batchAborts samples 0 outs.dropLast = false ∧
        h1.Distance = (successfulReadings outs).getLastD h.Distance := by
  unfold GetDistanceSample at hr
  simp only at hr
  generalize (match intervals with
    | [] => 60 * Millisecond
    | d :: _ => d) = interval at hr
  cases hs : sampleLoop env fuel samples interval samples.toNat 0 [] h w with
  | none => simp [hs] at hr
  | some r =>
    obtain ⟨ex, h2, w2⟩ := r
    cases ex with
    | aborted =>
      simp only [hs, Option.some.injEq, Prod.mk.injEq, Outcome.returned.injEq] at hr
      obtain ⟨he, hh, _⟩ := hr
      subst hh
      exact ⟨he.symm,
        sampleLoop_aborted env fuel samples interval samples.toNat 0 [] h w h2 w2 hs⟩
    | completed ds =>
      simp only [hs] at hr
      split at hr <;> simp at hr

/-- C4, amended, at a concrete input: the batch of five of the counterexample. -/
theorem GetDistanceSample_failure_Distance_witness :
    GoError.readTimeout = ErrHCSR04ReadTimeout ∧
      ∃ m outs, m ≤ (5 : Int).toNat ∧ cycleOutcomes envOnePulse 2 m h0 w0 = some outs ∧
        batchAborts 5 0 outs = true ∧ batchAborts 5 0 outs.dropLast = false ∧
        h8.Distance = (successfulReadings outs).getLastD h0.Distance :=
  GetDistanceSample_failure_Distance envOnePulse 2 5 [] h0 w0 GoError.readTimeout h8
    { writes := [("2", 0), ("2", 1), ("2", 0), ("2", 0), ("2", 0), ("2", 0), ("2", 0)]
      reads := ["1", "1"], ticks := 4 } (by decide)

/-- C5: a call of `GetDistance` that returns an error leaves `Distance` as it
was; and a call that, with the mutex free and the trigger writes successful,
reads the rising edge at read `j` and the falling edge at read `k` before any
timeout test finds the budget used up returns nil with `Distance.duration` the
clock reading taken at the falling edge minus the one taken at the rising edge. -/
theorem GetDistance_contract (env : Env) (fuel : Nat) (h : HCSR04Driver) (w : World) :
    (∀ e h1 w1, GetDistance env fuel h w = some (some e, h1, w1) → h1.Distance = h.Distance) ∧
    (∀ j k, h.lock = false →
      env.DigitalWrite w.writes.length h.outputPin 0 = none →
      env.DigitalWrite (w.writes.length + 1) h.outputPin 1 = none →
      env.DigitalWrite (w.writes.length + 2) h.outputPin 0 = none →
      j < k → k < fuel →
      (∀ i, i ≤ k → (env.DigitalRead (w.reads.length + i) h.inputPin).2 = none) →
      (∀ i, i < j → (env.DigitalRead (w.reads.length + i) h.inputPin).1 ≠ 1) →
      (env.DigitalRead (w.reads.length + j) h.inputPin).1 = 1 →
      (∀ i, j < i → i < k → (env.DigitalRead (w.reads.length + i) h.inputPin).1 ≠ 0) →
      (env.DigitalRead (w.reads.length + k) h.inputPin).1 = 0 →
      (∀ i, i < k → elapsedAt env h w i < h.timeout) →
      GetDistance env fuel h w =
        some (none,
          { h with Distance := ⟨env.Now (w.ticks + 2 + k) - env.Now (w.ticks + 1 + j)⟩ },
          { writes := w.writes ++ [(h.outputPin, 0), (h.outputPin, 1), (h.outputPin, 0)]
            reads := w.reads ++ List.replicate (k + 1) h.inputPin
            ticks := w.ticks + 3 + k })) :=
  ⟨fun e h1 w1 hr => (GetDistance_error env fuel h w e h1 w1 hr).1,
   fun j k hlock hw0 hw1 hw2 hjk hfuel hok hpre hrise hmid hfall htime =>
    GetDistance_pulse env fuel h w j k hlock hw0 hw1 hw2 hjk hfuel hok hpre hrise hmid hfall
      htime⟩

/-- C5 at concrete inputs: a cycle that times out with 8 ns stored, and a cycle
that reads the rising edge at read 0 and the falling edge at read 1. -/
theorem GetDistance_contract_witness :
    h8.Distance = h8.Distance ∧
      GetDistance envPulses 2 h0 w0 =
        some (none, h8,
          { writes := [("2", 0), ("2", 1), ("2", 0)], reads := ["1", "1"], ticks := 4 }) :=
  ⟨(GetDistance_contract envSlowClock 3 h8 w0).1 ErrHCSR04ReadTimeout h8
      { writes := [("2", 0), ("2", 1), ("2", 0)], reads := ["1", "1", "1"], ticks := 5 }
      (by decide),
   (GetDistance_contract envPulses 2 h0 w0).2 0 1 (by decide) (by decide) (by decide)
      (by decide) (by decide) (by decide) (by decide) (by decide) (by decide)
      (fun i h1 h2 => by omega) (by decide) (by decide)⟩

/-- C6: when the `samples.toNat` cycles of a batch all return, the batch is not
aborted and `k ≥ 1` of the cycles return nil, `GetDistanceSample` returns nil
and the stored `Distance` is the element at index `k / 2` of the readings of the
successful cycles in call order. -/
theorem GetDistanceSample_positional (env : Env) (fuel : Nat) (samples : Int)
    (intervals : List Duration) (h : HCSR04Driver) (w : World)
    (outs : List (Option GoError × hcsr04Distance))
    (hc : cycleOutcomes env fuel samples.toNat h w = some outs)
    (hna : batchAborts samples 0 outs = false)
    (hk : 1 ≤ (successfulReadings outs).length) :
    ∃ h1 w1, GetDistanceSample env fuel samples intervals h w =
        some (Outcome.returned none, h1, w1) ∧
      (successfulReadings outs)[(successfulReadings outs).length / 2]? = some h1.Distance := by
  obtain ⟨h2, w2, hs⟩ := sampleLoop_completed env fuel samples
    (match intervals with
      | [] => 60 * Millisecond
      | d :: _ => d) samples.toNat 0 [] h w outs hc hna
  simp only [List.nil_append] at hs
  have hlt : (successfulReadings outs).length / 2 < (successfulReadings outs).length :=
    Nat.div_lt_self (by omega) (by omega)
  have hget : (successfulReadings outs)[(successfulReadings outs).length / 2]? =
      some ((successfulReadings outs).get ⟨_, hlt⟩) := by
    simp [List.getElem?_eq_getElem hlt]
  refine ⟨{ h2 with Distance := (successfulReadings outs).get ⟨_, hlt⟩ }, w2, ?_, hget⟩
  unfold GetDistanceSample
  simp only [hs, hget]

/-- C6 at a concrete input: a batch of five with one failed cycle (fewer than
`5 / 2`) and four successful ones that measure 30, 10, 40, 20 ns in call order.
The stored reading is the one at index `4 / 2 = 2`, 40 ns: not the first, not
the last, and not a median of the sorted readings. -/
theorem GetDistanceSample_positional_witness :
    (cycleOutcomes envFourPulses 2 5 h0 w0 =
        some [(none, ⟨30⟩), (none, ⟨10⟩), (some (GoError.other "write error"), ⟨10⟩),
          (none, ⟨40⟩), (none, ⟨20⟩)] ∧
      successfulReadings [(none, ⟨30⟩), (none, ⟨10⟩),
          (some (GoError.other "write error"), ⟨10⟩), (none, ⟨40⟩), (none, ⟨20⟩)] =
        [⟨30⟩, ⟨10⟩, ⟨40⟩, ⟨20⟩] ∧
      (GetDistanceSample envFourPulses 2 5 [] h0 w0).map (fun r => (r.1, r.2.1.Distance)) =
        some (Outcome.returned none, ⟨40⟩)) ∧
      ∃ h1 w1, GetDistanceSample envFourPulses 2 5 [] h0 w0 =
          some (Outcome.returned none, h1, w1) ∧
        ([⟨30⟩, ⟨10⟩, ⟨40⟩, ⟨20⟩] : List hcsr04Distance)[4 / 2]? = some h1.Distance :=
  ⟨by decide,
   GetDistanceSample_positional envFourPulses 2 5 [] h0 w0
    [(none, ⟨30⟩), (none, ⟨10⟩), (some (GoError.other "write error"), ⟨10⟩), (none, ⟨40⟩),
      (none, ⟨20⟩)]
    (by decide) (by decide) (by decide)⟩

/-- C7 as stated fails: in a batch of ten whose cycles all succeed, with the
distinct durations 8, 24, ..., 152 in call order, the stored reading is the
sixth one, `d5 = 88`, not `d4 = 72`. -/
theorem GetDistanceSample_ten_stores_d5_not_d4 :
    cycleOutcomes envPulses 2 10 h0 w0 =
        some [(none, ⟨8⟩), (none, ⟨24⟩), (none, ⟨40⟩), (none, ⟨56⟩), (none, ⟨72⟩),
          (none, ⟨88⟩), (none, ⟨104⟩), (none, ⟨120⟩), (none, ⟨136⟩), (none, ⟨152⟩)] ∧
      (GetDistanceSample envPulses 2 10 [] h0 w0).map (fun r => (r.1, r.2.1.Distance)) =
        some (Outcome.returned none, ⟨88⟩) ∧
      (⟨88⟩ : hcsr04Distance) ≠ ⟨72⟩ := by
  decide

/-- C7, amended: in a batch with `samples = 10` whose ten cycles all succeed,
with readings `d0, ..., d9` in call order, `GetDistanceSample` returns nil and
stores `d5`. -/
theorem GetDistanceSample_ten_stores_d5 (env : Env) (fuel : Nat) (intervals : List Duration)
    (h : HCSR04Driver) (w : World) (d0 d1 d2 d3 d4 d5 d6 d7 d8 d9 : hcsr04Distance)
    (hc : cycleOutcomes env fuel 10 h w =
      some [(none, d0), (none, d1), (none, d2), (none, d3), (none, d4), (none, d5), (none, d6),
        (none, d7), (none, d8), (none, d9)]) :
    ∃ h1 w1, GetDistanceSample env fuel 10 intervals h w =
        some (Outcome.returned none, h1, w1) ∧ h1.Distance = d5 := by
  obtain ⟨h2, w2, hs⟩ := sampleLoop_completed env fuel 10
    (match intervals with
      | [] => 60 * Millisecond
      | d :: _ => d) 10 0 [] h w _ hc (by simp [batchAborts])
  refine ⟨{ h2 with Distance := d5 }, w2, ?_, rfl⟩
  have h10 : (10 : Int).toNat = 10 := rfl
  unfold GetDistanceSample
  simp only [h10, hs]
  simp [successfulReadings]

/-- C7, amended, at a concrete input: the batch of the counterexample. -/
theorem GetDistanceSample_ten_stores_d5_witness :
    ∃ h1 w1, GetDistanceSample envPulses 2 10 [] h0 w0 =
        some (Outcome.returned none, h1, w1) ∧ h1.Distance = ⟨88⟩ :=
  GetDistanceSample_ten_stores_d5 envPulses 2 [] h0 w0 ⟨8⟩ ⟨24⟩ ⟨40⟩ ⟨56⟩ ⟨72⟩ ⟨88⟩ ⟨104⟩ ⟨120⟩
    ⟨136⟩ ⟨152⟩ (by decide)

/-- C8: called with the timeout override 100 ms, `NewHCSR04Driver` builds a
driver whose timeout budget is 40 ms, not 100 ms; the budget is 40 ms whatever
is passed. -/
theorem NewHCSR04Driver_ignores_override :
    (NewHCSR04Driver "1" "2" [100 * Millisecond]).timeout = 40 * Millisecond ∧
      (NewHCSR04Driver "1" "2" [100 * Millisecond]).timeout ≠ 100 * Millisecond ∧
      ∀ (inputPin outputPin : String) (v : List Duration),
        (NewHCSR04Driver inputPin outputPin v).timeout = 40 * Millisecond :=
  ⟨by decide, by decide, fun _ _ _ => rfl⟩

end HCSR04
